import Mathlib

/-!
# Referral-system settlement engine: shallow embedding and verification

This file embeds the settlement core of the `referral-system` repository
(`src/lib.rs`, with the earlier variant from `src/main.rs` and the HTTP
error mapping from `src/api.rs`/`src/error.rs`) as executable Lean
definitions over an explicit store state, and proves the specification
claims about it.

Modelling conventions:
* Postgres tables (`purchases`, `users`, `rewards`, `balances`) become
  lists inside a `Store` record; a transaction is explicit state passing,
  and an aborted transaction (an early `?` return in Rust) surfaces as
  `Except.error` with the caller keeping the pre-transaction store
  (rollback).
* `sqlx` `fetch_one` on an empty result set fails with `RowNotFound`;
  this is the only data-access failure the embedding models
  (infrastructure failures are environment nondeterminism, not program
  logic).
* Rust machine integers are embedded as `Int` with explicit wrapping
  where the source casts (`as i64`); Rust `/` on `i128` truncates toward
  zero, which is `Int.tdiv`.
-/

/-- User ids are `i64` in the source; embedded as `Int`. -/
abbrev UserId := Int

/-- Purchase ids are `Uuid` in the source: opaque values compared only for
equality, embedded as `Nat`. -/
abbrev PurchaseId := Nat

/-- A row of the `purchases` table. -/
structure Purchase where
  id : PurchaseId
  user_id : UserId
  amount : Int
  status : String
deriving DecidableEq, Repr

/-- A row of the `users` table (the columns the core reads). -/
structure User where
  id : UserId
  referrer_id : Option UserId
  is_active : Bool
deriving DecidableEq, Repr

/-- A row of the `rewards` table. -/
structure Reward where
  purchase_id : PurchaseId
  user_id : UserId
  beneficiary_user_id : UserId
  level : Int
  amount : Int
deriving DecidableEq, Repr

/-- The durable store: the four tables the core touches. -/
structure Store where
  purchases : List Purchase
  users : List User
  rewards : List Reward
  balances : List (UserId × Int)
deriving DecidableEq, Repr

/-- The empty store. -/
def Store.empty : Store := ⟨[], [], [], []⟩

/-- The one modelled data-access failure: `sqlx::Error::RowNotFound`,
raised by `fetch_one` on an empty result set. -/
inductive DbError where
  | rowNotFound
deriving DecidableEq, Repr

/-- `L1_PERCENTAGE` from `lib.rs`. -/
def L1_PERCENTAGE : Int := 10

/-- `L2_PERCENTAGE` from `lib.rs`. -/
def L2_PERCENTAGE : Int := 5

/-- `PAYMENT_STATUS_CAPTURED` from `lib.rs`. -/
def PAYMENT_STATUS_CAPTURED : String := "captured"

/-- Wrapping conversion of an unbounded integer to `i64` (Rust `as i64`). -/
def wrap64 (x : Int) : Int := (x + 2 ^ 63) % 2 ^ 64 - 2 ^ 63

/-- `percent_of` from `lib.rs` (identical in `main.rs`):
`((amount as i128 * percent as i128) / 100) as i64`.  The `i128`
multiplication of an `i64` by an `i32` cannot wrap, so it is plain `Int`
multiplication; `i128` division truncates toward zero (`Int.tdiv`); the
final `as i64` cast wraps (`wrap64`). -/
def percent_of (amount : Int) (percent : Int) : Int :=
  wrap64 (Int.tdiv (amount * percent) 100)

/-- The specification's contract for `PercentOf` (§4.3), taken verbatim
from its words: `floor(amount * percent / 100)` with no overflow.  Kept
separate from `percent_of` (which embeds the code) so the two can be
compared. -/
def percent_of_spec (amount : Int) (percent : Int) : Int :=
  Int.fdiv (amount * percent) 100

/-- `SELECT id, user_id, amount, status FROM purchases WHERE id = $1 FOR
UPDATE` followed by `fetch_one`: the first matching row, or
`RowNotFound`. -/
def fetch_purchase (s : Store) (purchase_id : PurchaseId) :
    Except DbError Purchase :=
  match s.purchases.find? (fun p => p.id == purchase_id) with
  | some p => .ok p
  | none => .error .rowNotFound

/-- `active_referrer` from `lib.rs` (identical in `main.rs`): `fetch_one`
of the user's `referrer_id` (errors when the user row is absent), then
`fetch_optional` of the referrer's `is_active`; returns the referrer only
when that row exists and is active. -/
def active_referrer (s : Store) (user_id : UserId) :
    Except DbError (Option UserId) :=
  match s.users.find? (fun u => u.id == user_id) with
  | none => .error .rowNotFound
  | some row =>
    match row.referrer_id with
    | some rid =>
      match s.users.find? (fun u => u.id == rid) with
      | some r2 => if r2.is_active then .ok (some rid) else .ok none
      | none => .ok none
    | none => .ok none

/-- Does the `rewards` table hold a row with this
`(purchase_id, beneficiary_user_id, level)` key?  This is the conflict
test of the unique constraint in `insert_reward`, and also the query of
`has_rewarded` in `main.rs`. -/
def hasKeyB (s : Store) (purchase_id : PurchaseId)
    (beneficiary_user_id : UserId) (level : Int) : Bool :=
  s.rewards.any (fun r =>
    r.purchase_id == purchase_id &&
    r.beneficiary_user_id == beneficiary_user_id &&
    r.level == level)

/-- `insert_reward` from `lib.rs`: `INSERT ... ON CONFLICT (purchase_id,
beneficiary_user_id, level) DO NOTHING`, reporting
`rows_affected() == 1`.  A key conflict changes nothing and reports
`false`; otherwise the row is appended and `true` is reported.  It cannot
fail. -/
def insert_reward (s : Store) (purchase_id : PurchaseId) (user_id : UserId)
    (beneficiary_user_id : UserId) (level : Int) (amount : Int) :
    Store × Bool :=
  if hasKeyB s purchase_id beneficiary_user_id level then
    (s, false)
  else
    ({ s with rewards :=
        s.rewards ++ [⟨purchase_id, user_id, beneficiary_user_id, level, amount⟩] },
     true)

/-- `add_balance` from `lib.rs` (identical in `main.rs`): `INSERT ... ON
CONFLICT (user_id) DO UPDATE SET balance = balances.balance +
EXCLUDED.balance` — upsert-increment of the user's balance row. -/
def add_balance (s : Store) (user_id : UserId) (delta : Int) : Store :=
  if s.balances.any (fun b => b.1 == user_id) then
    { s with balances :=
        s.balances.map (fun b => if b.1 == user_id then (b.1, b.2 + delta) else b) }
  else
    { s with balances := s.balances ++ [(user_id, delta)] }

/-- A user's balance as read back (`get_balance_handler` reads the row
and defaults to 0 when absent). -/
def balanceOf (s : Store) (user_id : UserId) : Int :=
  match s.balances.find? (fun b => b.1 == user_id) with
  | some b => b.2
  | none => 0

/-- The per-level grant-and-credit block of `process_purchase` in
`lib.rs` (lines 61–66 for level 1 and 67–72 for level 2, which repeat the
same code): when a beneficiary is resolved and the reward amount is
strictly positive, attempt the insert, and credit the balance only when
the insert reported a newly created row.  `process_purchase` instantiates
this block at levels 1 and 2. -/
def levelBlock (s : Store) (purchase_id : PurchaseId) (buyer_id : UserId)
    (benef : Option UserId) (level : Int) (amt : Int) : Store :=
  match benef with
  | some u =>
    if amt > 0 then
      match insert_reward s purchase_id buyer_id u level amt with
      | (s1, newly) => if newly then add_balance s1 u amt else s1
    else s
  | none => s

/-- `process_purchase` from `lib.rs`: lock-and-fetch the purchase
(`RowNotFound` aborts), no-op commit when the status is not `"captured"`,
resolve the two referrer levels, then run the grant-and-credit block for
each level.  An `Except.error` is an aborted (rolled back) transaction;
`Except.ok` carries the committed store. -/
def process_purchase (s : Store) (purchase_id : PurchaseId) :
    Except DbError Store :=
  match fetch_purchase s purchase_id with
  | .error e => .error e
  | .ok pr =>
    if pr.status ≠ PAYMENT_STATUS_CAPTURED then .ok s
    else
      let buyer_id := pr.user_id
      let amount := pr.amount
      match active_referrer s buyer_id with
      | .error e => .error e
      | .ok l1 =>
        match (match l1 with
               | some u => active_referrer s u
               | none => .ok none) with
        | .error e => .error e
        | .ok l2 =>
          let s1 := levelBlock s purchase_id buyer_id l1 1
            (percent_of amount L1_PERCENTAGE)
          let s2 := levelBlock s1 purchase_id buyer_id l2 2
            (percent_of amount L2_PERCENTAGE)
          .ok s2

/-- The store a caller observes after one `Settle` call: the committed
store on success, the unchanged store on abort (rollback). -/
def settleState (s : Store) (purchase_id : PurchaseId) : Store :=
  match process_purchase s purchase_id with
  | .ok s1 => s1
  | .error _ => s

/-! ## The earlier settlement variant in `main.rs` -/

/-- `has_rewarded` from `main.rs`: `SELECT 1 FROM rewards WHERE
purchase_id = $1 AND beneficiary_user_id = $2 AND level = $3` with
`fetch_optional` — true iff a row with that key exists. -/
def has_rewarded (s : Store) (purchase_id : PurchaseId)
    (beneficiary_user_id : UserId) (level : Int) : Bool :=
  hasKeyB s purchase_id beneficiary_user_id level

/-- `insert_reward` from `main.rs`: the same conflict-absorbing insert,
but the variant discards `rows_affected` and returns only the store. -/
def insert_reward_main (s : Store) (purchase_id : PurchaseId)
    (user_id : UserId) (beneficiary_user_id : UserId) (level : Int)
    (amount : Int) : Store :=
  (insert_reward s purchase_id user_id beneficiary_user_id level amount).1

/-- The per-level block of `process_purchase` in `main.rs` (lines
193–201 for level 1 and 202–210 for level 2): pre-check `has_rewarded`,
and when the amount is positive and the key was not yet rewarded, insert
the grant and credit the balance unconditionally. -/
def levelBlockMain (s : Store) (purchase_id : PurchaseId) (buyer_id : UserId)
    (benef : Option UserId) (level : Int) (amt : Int) : Store :=
  match benef with
  | some u =>
    let has_been_rewarded := has_rewarded s purchase_id u level
    if amt > 0 && !has_been_rewarded then
      add_balance (insert_reward_main s purchase_id buyer_id u level amt) u amt
    else s
  | none => s

/-- `process_purchase` from `main.rs` (lines 168–214): identical
fetch/status/chain logic, but each level pre-checks `has_rewarded`
instead of gating on the insert's report. -/
def process_purchase_main (s : Store) (purchase_id : PurchaseId) :
    Except DbError Store :=
  match fetch_purchase s purchase_id with
  | .error e => .error e
  | .ok pr =>
    if pr.status ≠ PAYMENT_STATUS_CAPTURED then .ok s
    else
      let buyer_id := pr.user_id
      let amount := pr.amount
      match active_referrer s buyer_id with
      | .error e => .error e
      | .ok l1 =>
        match (match l1 with
               | some u => active_referrer s u
               | none => .ok none) with
        | .error e => .error e
        | .ok l2 =>
          let s1 := levelBlockMain s purchase_id buyer_id l1 1
            (percent_of amount L1_PERCENTAGE)
          let s2 := levelBlockMain s1 purchase_id buyer_id l2 2
            (percent_of amount L2_PERCENTAGE)
          .ok s2

/-! ## The HTTP error surface (`api.rs` / `error.rs`) -/

/-- `ApiError` from `error.rs`: the only variants the service can report.
There is no not-found variant. -/
inductive ApiError where
  | badRequest (msg : String)
  | conflict (msg : String)
  | internal (e : DbError)
deriving DecidableEq, Repr

/-- `E_PROCESS_FAILURE` from `error.rs`. -/
def E_PROCESS_FAILURE : String := "PROCESS_FAILURE"

/-- The HTTP status an `ApiError` is rendered with (`IntoResponse` in
`error.rs`). -/
def apiStatusOf : ApiError → Nat
  | .badRequest _ => 400
  | .conflict _ => 409
  | .internal _ => 500

/-- `process_purchase_handler` from `api.rs` (lines 149–165): run
`process_purchase` and map **every** failure to
`ApiError::Internal` with code `E_PROCESS_FAILURE`. -/
def process_purchase_handler (s : Store) (id : PurchaseId) :
    Except (ApiError × String) (Store × PurchaseId) :=
  match process_purchase s id with
  | .error e => .error (ApiError.internal e, E_PROCESS_FAILURE)
  | .ok s1 => .ok (s1, id)

/-! ## Concrete example stores (used by witnesses) -/

/-- Buyer 1 is referred by user 2 (active), who is referred by user 3
(active). -/
def usersChain : List User :=
  [⟨1, some 2, true⟩, ⟨2, some 3, true⟩, ⟨3, none, true⟩]

/-- Buyer 1 is referred by user 2 (inactive), who is referred by user 3
(active). -/
def usersInactiveL1 : List User :=
  [⟨1, some 2, true⟩, ⟨2, some 3, false⟩, ⟨3, none, true⟩]

/-- A captured purchase of amount 1000 by buyer 1, with id 0. -/
def purchaseCaptured : Purchase := ⟨0, 1, 1000, "captured"⟩

/-- An authorized (not yet captured) purchase of amount 1000 by buyer 1. -/
def purchaseAuthorized : Purchase := ⟨0, 1, 1000, "authorized"⟩

/-- Store with the active two-level chain and the captured purchase. -/
def sChain : Store := ⟨[purchaseCaptured], usersChain, [], []⟩

/-- Store with an inactive level-1 referrer and the captured purchase. -/
def sInactive : Store := ⟨[purchaseCaptured], usersInactiveL1, [], []⟩

/-- Store with the authorized purchase. -/
def sAuthorized : Store := ⟨[purchaseAuthorized], usersChain, [], []⟩

/-- Store with a captured purchase whose buyer has no `users` row. -/
def sNoBuyer : Store := ⟨[purchaseCaptured], [⟨2, some 3, true⟩], [], []⟩

/-! ## Basic lemmas about the store operations -/

theorem add_balance_purchases (s : Store) (u : UserId) (d : Int) :
    (add_balance s u d).purchases = s.purchases := by
  unfold add_balance; split <;> rfl

theorem add_balance_users (s : Store) (u : UserId) (d : Int) :
    (add_balance s u d).users = s.users := by
  unfold add_balance; split <;> rfl

theorem add_balance_rewards (s : Store) (u : UserId) (d : Int) :
    (add_balance s u d).rewards = s.rewards := by
  unfold add_balance; split <;> rfl

/-- Closed form of the per-level block for a resolved beneficiary: when
the amount is positive and the key is absent, append the grant row and
credit; otherwise do nothing. -/
theorem levelBlock_some_eq (s : Store) (pid : PurchaseId) (buyer u : UserId)
    (lvl amt : Int) :
    levelBlock s pid buyer (some u) lvl amt =
      if amt > 0 ∧ hasKeyB s pid u lvl = false then
        add_balance
          { s with rewards := s.rewards ++ [⟨pid, buyer, u, lvl, amt⟩] } u amt
      else s := by
  by_cases ha : amt > 0 <;> by_cases hk : hasKeyB s pid u lvl <;>
    simp [levelBlock, insert_reward, ha, hk]

theorem levelBlock_none_eq (s : Store) (pid : PurchaseId) (buyer : UserId)
    (lvl amt : Int) : levelBlock s pid buyer none lvl amt = s := rfl

theorem levelBlock_purchases (s : Store) (pid : PurchaseId) (buyer : UserId)
    (benef : Option UserId) (lvl amt : Int) :
    (levelBlock s pid buyer benef lvl amt).purchases = s.purchases := by
  cases benef with
  | none => rfl
  | some u =>
    rw [levelBlock_some_eq]
    split
    · rw [add_balance_purchases]
    · rfl

theorem levelBlock_users (s : Store) (pid : PurchaseId) (buyer : UserId)
    (benef : Option UserId) (lvl amt : Int) :
    (levelBlock s pid buyer benef lvl amt).users = s.users := by
  cases benef with
  | none => rfl
  | some u =>
    rw [levelBlock_some_eq]
    split
    · rw [add_balance_users]
    · rfl

theorem hasKeyB_of_rewards_eq {s1 s2 : Store} (h : s1.rewards = s2.rewards)
    (pid : PurchaseId) (u : UserId) (lvl : Int) :
    hasKeyB s1 pid u lvl = hasKeyB s2 pid u lvl := by
  simp [hasKeyB, h]

theorem hasKeyB_append (s : Store) (r : Reward) (pid : PurchaseId)
    (u : UserId) (lvl : Int) :
    hasKeyB { s with rewards := s.rewards ++ [r] } pid u lvl =
      (hasKeyB s pid u lvl ||
        (r.purchase_id == pid && r.beneficiary_user_id == u && r.level == lvl)) := by
  simp [hasKeyB]

/-- The per-level block never removes a reward key. -/
theorem hasKeyB_levelBlock_mono (s : Store) (pid0 : PurchaseId)
    (buyer : UserId) (benef : Option UserId) (lvl0 amt : Int)
    (pid : PurchaseId) (u : UserId) (lvl : Int)
    (h : hasKeyB s pid u lvl = true) :
    hasKeyB (levelBlock s pid0 buyer benef lvl0 amt) pid u lvl = true := by
  cases benef with
  | none => exact h
  | some v =>
    rw [levelBlock_some_eq]
    split
    · rw [hasKeyB_of_rewards_eq (add_balance_rewards _ _ _), hasKeyB_append, h]
      rfl
    · exact h

/-- After a per-level block with a resolved beneficiary and a positive
amount, the key for that level is present. -/
theorem hasKeyB_levelBlock_self (s : Store) (pid : PurchaseId)
    (buyer u : UserId) (lvl amt : Int) (ha : amt > 0) :
    hasKeyB (levelBlock s pid buyer (some u) lvl amt) pid u lvl = true := by
  rw [levelBlock_some_eq]
  by_cases hk : hasKeyB s pid u lvl
  · simp [ha, hk]
  · simp only [ha, hk, true_and, if_pos]
    rw [hasKeyB_of_rewards_eq (add_balance_rewards _ _ _), hasKeyB_append]
    simp [hk]

/-- A per-level block whose key is already granted changes nothing. -/
theorem levelBlock_of_hasKey (s : Store) (pid : PurchaseId) (buyer u : UserId)
    (lvl amt : Int) (hk : hasKeyB s pid u lvl = true) :
    levelBlock s pid buyer (some u) lvl amt = s := by
  rw [levelBlock_some_eq]
  simp [hk]

theorem fetch_purchase_of_purchases_eq {s1 s2 : Store}
    (h : s1.purchases = s2.purchases) (pid : PurchaseId) :
    fetch_purchase s1 pid = fetch_purchase s2 pid := by
  simp [fetch_purchase, h]

theorem active_referrer_of_users_eq {s1 s2 : Store}
    (h : s1.users = s2.users) (u : UserId) :
    active_referrer s1 u = active_referrer s2 u := by
  simp [active_referrer, h]

/-! ## Characterizations of `process_purchase` -/

/-- A settlement call on a missing purchase aborts with `RowNotFound`. -/
theorem process_purchase_not_found {s : Store} {p : PurchaseId}
    (hf : fetch_purchase s p = .error .rowNotFound) :
    process_purchase s p = .error .rowNotFound := by
  unfold process_purchase
  rw [hf]

/-- A settlement call on a non-captured purchase is a committed no-op. -/
theorem process_purchase_not_captured {s : Store} {p : PurchaseId}
    {pr : Purchase} (hf : fetch_purchase s p = .ok pr)
    (hst : pr.status ≠ PAYMENT_STATUS_CAPTURED) :
    process_purchase s p = .ok s := by
  unfold process_purchase
  rw [hf]
  simp [hst]

/-- A settlement call on a captured purchase whose chain resolution
succeeds commits exactly the two per-level blocks. -/
theorem process_purchase_captured_eq {s : Store} {p : PurchaseId}
    {pr : Purchase} {l1 l2 : Option UserId}
    (hf : fetch_purchase s p = .ok pr)
    (hst : pr.status = PAYMENT_STATUS_CAPTURED)
    (h1 : active_referrer s pr.user_id = .ok l1)
    (h2 : (match l1 with
           | some u => active_referrer s u
           | none => .ok none) = .ok l2) :
    process_purchase s p =
      .ok (levelBlock
            (levelBlock s p pr.user_id l1 1 (percent_of pr.amount L1_PERCENTAGE))
            p pr.user_id l2 2 (percent_of pr.amount L2_PERCENTAGE)) := by
  unfold process_purchase
  rw [hf]
  simp only [hst, ne_eq, not_true_eq_false, if_false, h1, h2]

/-- A settlement call on a captured purchase whose buyer has no `users`
row aborts with `RowNotFound` (the chain lookup's `fetch_one` fails). -/
theorem process_purchase_no_buyer {s : Store} {p : PurchaseId}
    {pr : Purchase} (hf : fetch_purchase s p = .ok pr)
    (hst : pr.status = PAYMENT_STATUS_CAPTURED)
    (hb : s.users.find? (fun u => u.id == pr.user_id) = none) :
    process_purchase s p = .error .rowNotFound := by
  unfold process_purchase
  rw [hf]
  simp only [hst, ne_eq, not_true_eq_false, if_false]
  have h1 : active_referrer s pr.user_id = .error .rowNotFound := by
    unfold active_referrer
    rw [hb]
  rw [h1]

/-- A per-level block with a non-positive amount changes nothing. -/
theorem levelBlock_of_nonpos (s : Store) (pid : PurchaseId) (buyer u : UserId)
    (lvl amt : Int) (ha : ¬amt > 0) :
    levelBlock s pid buyer (some u) lvl amt = s := by
  rw [levelBlock_some_eq]
  simp [ha]

/-- A failing level-1 chain lookup aborts the settlement call. -/
theorem process_purchase_chain1_error {s : Store} {p : PurchaseId}
    {pr : Purchase} {e : DbError} (hf : fetch_purchase s p = .ok pr)
    (hst : pr.status = PAYMENT_STATUS_CAPTURED)
    (h1 : active_referrer s pr.user_id = .error e) :
    process_purchase s p = .error e := by
  unfold process_purchase
  rw [hf]
  simp only [hst, ne_eq, not_true_eq_false, if_false, h1]

/-- A failing level-2 chain lookup aborts the settlement call. -/
theorem process_purchase_chain2_error {s : Store} {p : PurchaseId}
    {pr : Purchase} {l1 : Option UserId} {e : DbError}
    (hf : fetch_purchase s p = .ok pr)
    (hst : pr.status = PAYMENT_STATUS_CAPTURED)
    (h1 : active_referrer s pr.user_id = .ok l1)
    (h2 : (match l1 with
           | some u => active_referrer s u
           | none => .ok none) = .error e) :
    process_purchase s p = .error e := by
  unfold process_purchase
  rw [hf]
  simp only [hst, ne_eq, not_true_eq_false, if_false, h1, h2]

/-! ## Idempotence -/

/-- A committed settlement call leaves the `purchases` and `users` tables
untouched. -/
theorem process_purchase_ok_frame {s s2 : Store} {p : PurchaseId}
    (h : process_purchase s p = .ok s2) :
    s2.purchases = s.purchases ∧ s2.users = s.users := by
  unfold process_purchase at h
  cases hf : fetch_purchase s p with
  | error e => simp only [hf] at h; exact Except.noConfusion h
  | ok pr =>
    simp only [hf] at h
    by_cases hst : pr.status = PAYMENT_STATUS_CAPTURED
    · simp only [hst, ne_eq, not_true_eq_false, if_false] at h
      cases h1 : active_referrer s pr.user_id with
      | error e => simp only [h1] at h; exact Except.noConfusion h
      | ok l1 =>
        simp only [h1] at h
        cases h2 : (match l1 with
                    | some u => active_referrer s u
                    | none => .ok none) with
        | error e => simp only [h2] at h; exact Except.noConfusion h
        | ok l2 =>
          simp only [h2, Except.ok.injEq] at h
          have hs2 := h.symm
          subst hs2
          constructor
          · rw [levelBlock_purchases, levelBlock_purchases]
          · rw [levelBlock_users, levelBlock_users]
    · simp only [if_pos hst, Except.ok.injEq] at h
      have hs2 := h.symm
      subst hs2
      exact ⟨rfl, rfl⟩

/-- The core idempotence fact: re-running a committed settlement call on
its own result commits again without changing anything. -/
theorem process_purchase_ok_idem {s s2 : Store} {p : PurchaseId}
    (h : process_purchase s p = .ok s2) :
    process_purchase s2 p = .ok s2 := by
  obtain ⟨hpur, husers⟩ := process_purchase_ok_frame h
  unfold process_purchase at h
  cases hf : fetch_purchase s p with
  | error e => simp only [hf] at h; exact Except.noConfusion h
  | ok pr =>
    simp only [hf] at h
    have hf2 : fetch_purchase s2 p = .ok pr :=
      (fetch_purchase_of_purchases_eq hpur p).trans hf
    by_cases hst : pr.status = PAYMENT_STATUS_CAPTURED
    · simp only [hst, ne_eq, not_true_eq_false, if_false] at h
      cases h1 : active_referrer s pr.user_id with
      | error e => simp only [h1] at h; exact Except.noConfusion h
      | ok l1 =>
        simp only [h1] at h
        cases h2 : (match l1 with
                    | some u => active_referrer s u
                    | none => .ok none) with
        | error e => simp only [h2] at h; exact Except.noConfusion h
        | ok l2 =>
          simp only [h2, Except.ok.injEq] at h
          have hs2 := h.symm
          have h1' : active_referrer s2 pr.user_id = .ok l1 :=
            (active_referrer_of_users_eq husers pr.user_id).trans h1
          have h2' : (match l1 with
                      | some u => active_referrer s2 u
                      | none => .ok none) = .ok l2 := by
            cases l1 with
            | none => exact h2
            | some u => exact (active_referrer_of_users_eq husers u).trans h2
          rw [process_purchase_captured_eq hf2 hst h1' h2']
          -- both re-run blocks are no-ops on `s2`
          have hb1 : levelBlock s2 p pr.user_id l1 1
              (percent_of pr.amount L1_PERCENTAGE) = s2 := by
            cases l1 with
            | none => rfl
            | some u1 =>
              by_cases ha1 : percent_of pr.amount L1_PERCENTAGE > 0
              · apply levelBlock_of_hasKey
                rw [hs2]
                apply hasKeyB_levelBlock_mono
                exact hasKeyB_levelBlock_self _ _ _ _ _ _ ha1
              · exact levelBlock_of_nonpos _ _ _ _ _ _ ha1
          rw [hb1]
          have hb2 : levelBlock s2 p pr.user_id l2 2
              (percent_of pr.amount L2_PERCENTAGE) = s2 := by
            cases l2 with
            | none => rfl
            | some u2 =>
              by_cases ha2 : percent_of pr.amount L2_PERCENTAGE > 0
              · apply levelBlock_of_hasKey
                rw [hs2]
                exact hasKeyB_levelBlock_self _ _ _ _ _ _ ha2
              · exact levelBlock_of_nonpos _ _ _ _ _ _ ha2
          rw [hb2]
    · simp only [if_pos hst, Except.ok.injEq] at h
      have hs2 := h.symm
      subst hs2
      exact process_purchase_not_captured hf hst

/-- Observed-state idempotence: a second sequential `Settle` of the same
purchase leaves the observed store exactly where one call put it. -/
theorem settleState_idem (s : Store) (p : PurchaseId) :
    settleState (settleState s p) p = settleState s p := by
  unfold settleState
  cases h : process_purchase s p with
  | ok s2 => rw [process_purchase_ok_idem h]
  | error e => rw [h]

/-! ## Equivalence of the two settlement variants -/

/-- The `main.rs` per-level block (pre-check `has_rewarded`, then insert
and credit unconditionally) computes the same store as the `lib.rs` block
(gate the credit on the insert's newly-created report), when run
sequentially inside one transaction. -/
theorem levelBlockMain_eq (s : Store) (pid : PurchaseId) (buyer : UserId)
    (benef : Option UserId) (lvl amt : Int) :
    levelBlockMain s pid buyer benef lvl amt =
      levelBlock s pid buyer benef lvl amt := by
  cases benef with
  | none => rfl
  | some u =>
    rw [levelBlock_some_eq]
    by_cases ha : amt > 0 <;> by_cases hk : hasKeyB s pid u lvl <;>
      simp [levelBlockMain, has_rewarded, insert_reward_main, insert_reward,
        ha, hk]

/-- The full `main.rs` settlement routine equals the `lib.rs` one as a
function of the store: identical result and identical committed state. -/
theorem process_purchase_main_eq (s : Store) (p : PurchaseId) :
    process_purchase_main s p = process_purchase s p := by
  unfold process_purchase_main process_purchase
  simp only [levelBlockMain_eq]

/-! ## The reward-key uniqueness invariant -/

/-- Number of `rewards` rows carrying a given
`(purchase, beneficiary, level)` key. -/
def RewardKeyCount (s : Store) (purchase_id : PurchaseId) (u : UserId)
    (lvl : Int) : Nat :=
  s.rewards.countP (fun r =>
    r.purchase_id == purchase_id &&
    r.beneficiary_user_id == u &&
    r.level == lvl)

/-- At most one grant row exists per key. -/
def RewardKeysUnique (s : Store) : Prop :=
  ∀ purchase_id u lvl, RewardKeyCount s purchase_id u lvl ≤ 1

theorem RewardKeyCount_eq_zero_of_not_hasKey {s : Store} {pid : PurchaseId}
    {u : UserId} {lvl : Int} (h : hasKeyB s pid u lvl = false) :
    RewardKeyCount s pid u lvl = 0 := by
  rw [RewardKeyCount, List.countP_eq_zero]
  intro r hr
  simp only [hasKeyB, List.any_eq_false] at h
  exact h r hr

theorem RewardKeyCount_of_rewards_eq {s1 s2 : Store}
    (h : s1.rewards = s2.rewards) (pid : PurchaseId) (u : UserId)
    (lvl : Int) : RewardKeyCount s1 pid u lvl = RewardKeyCount s2 pid u lvl := by
  simp [RewardKeyCount, h]

theorem RewardKeyCount_append (s : Store) (r : Reward) (pid : PurchaseId)
    (u : UserId) (lvl : Int) :
    RewardKeyCount { s with rewards := s.rewards ++ [r] } pid u lvl =
      RewardKeyCount s pid u lvl +
        (if r.purchase_id == pid && r.beneficiary_user_id == u && r.level == lvl
         then 1 else 0) := by
  simp [RewardKeyCount, List.countP_append, List.countP_cons]

/-- The per-level block preserves reward-key uniqueness: it inserts only
when the conflict check reports the key absent. -/
theorem RewardKeysUnique_levelBlock (s : Store) (pid : PurchaseId)
    (buyer : UserId) (benef : Option UserId) (lvl amt : Int)
    (h : RewardKeysUnique s) :
    RewardKeysUnique (levelBlock s pid buyer benef lvl amt) := by
  cases benef with
  | none => exact h
  | some u =>
    rw [levelBlock_some_eq]
    split
    · rename_i hcond
      intro pid' u' lvl'
      rw [RewardKeyCount_of_rewards_eq (add_balance_rewards _ _ _),
        RewardKeyCount_append]
      by_cases hm : ((⟨pid, buyer, u, lvl, amt⟩ : Reward).purchase_id == pid' &&
          (⟨pid, buyer, u, lvl, amt⟩ : Reward).beneficiary_user_id == u' &&
          (⟨pid, buyer, u, lvl, amt⟩ : Reward).level == lvl') = true
      · rw [if_pos hm]
        simp only [Bool.and_eq_true, beq_iff_eq] at hm
        obtain ⟨⟨hp, hu⟩, hl⟩ := hm
        subst hp; subst hu; subst hl
        rw [RewardKeyCount_eq_zero_of_not_hasKey hcond.2]
      · rw [if_neg hm, Nat.add_zero]
        exact h pid' u' lvl'
    · exact h

/-- Inversion of a committed settlement call: it is either the no-op
commit or the two per-level blocks. -/
theorem process_purchase_ok_inv {s s2 : Store} {p : PurchaseId}
    (h : process_purchase s p = .ok s2) :
    s2 = s ∨
      ∃ pr l1 l2, fetch_purchase s p = .ok pr ∧
        pr.status = PAYMENT_STATUS_CAPTURED ∧
        active_referrer s pr.user_id = .ok l1 ∧
        (match l1 with
         | some u => active_referrer s u
         | none => .ok none) = .ok l2 ∧
        s2 = levelBlock
              (levelBlock s p pr.user_id l1 1 (percent_of pr.amount L1_PERCENTAGE))
              p pr.user_id l2 2 (percent_of pr.amount L2_PERCENTAGE) := by
  unfold process_purchase at h
  cases hf : fetch_purchase s p with
  | error e => simp only [hf] at h; exact Except.noConfusion h
  | ok pr =>
    simp only [hf] at h
    by_cases hst : pr.status = PAYMENT_STATUS_CAPTURED
    · simp only [hst, ne_eq, not_true_eq_false, if_false] at h
      cases h1 : active_referrer s pr.user_id with
      | error e => simp only [h1] at h; exact Except.noConfusion h
      | ok l1 =>
        simp only [h1] at h
        cases h2 : (match l1 with
                    | some u => active_referrer s u
                    | none => .ok none) with
        | error e => simp only [h2] at h; exact Except.noConfusion h
        | ok l2 =>
          simp only [h2, Except.ok.injEq] at h
          exact .inr ⟨pr, l1, l2, rfl, hst, h1, h2, h.symm⟩
    · simp only [if_pos hst, Except.ok.injEq] at h
      exact .inl h.symm

/-- One observed settlement call preserves reward-key uniqueness. -/
theorem RewardKeysUnique_settleState (s : Store) (p : PurchaseId)
    (h : RewardKeysUnique s) : RewardKeysUnique (settleState s p) := by
  unfold settleState
  cases hr : process_purchase s p with
  | error e => exact h
  | ok s2 =>
    rcases process_purchase_ok_inv hr with heq | ⟨pr, l1, l2, _, _, _, _, heq⟩
    · rw [heq]; exact h
    · rw [heq]
      exact RewardKeysUnique_levelBlock _ _ _ _ _ _
        (RewardKeysUnique_levelBlock _ _ _ _ _ _ h)

/-- States of the system over its lifetime: starting empty, the `users`
table is edited externally, the intake collaborator appends purchases,
and the core settles; `rewards` rows are created only by `insert_reward`
inside settlement. -/
inductive Reachable : Store → Prop where
  | init : Reachable Store.empty
  | setUsers (s : Store) (us : List User) :
      Reachable s → Reachable { s with users := us }
  | addPurchase (s : Store) (pr : Purchase) :
      Reachable s → Reachable { s with purchases := s.purchases ++ [pr] }
  | settle (s : Store) (p : PurchaseId) :
      Reachable s → Reachable (settleState s p)

/-- Reward-key uniqueness holds in every reachable state. -/
theorem reachable_rewardKeysUnique {s : Store} (h : Reachable s) :
    RewardKeysUnique s := by
  induction h with
  | init => intro pid u lvl; simp [RewardKeyCount, Store.empty]
  | setUsers s us _ ih =>
    intro pid u lvl
    rw [@RewardKeyCount_of_rewards_eq { s with users := us } s rfl pid u lvl]
    exact ih pid u lvl
  | addPurchase s pr _ ih =>
    intro pid u lvl
    rw [@RewardKeyCount_of_rewards_eq
      { s with purchases := s.purchases ++ [pr] } s rfl pid u lvl]
    exact ih pid u lvl
  | settle s p _ ih => exact RewardKeysUnique_settleState s p ih

/-- A duplicate grant attempt (key already present) inserts nothing,
reports not-newly-created, and cannot error (its type has no error
outcome). -/
theorem insert_reward_duplicate (s : Store) (pid : PurchaseId)
    (buyer u : UserId) (lvl amt : Int) (hk : hasKeyB s pid u lvl = true) :
    insert_reward s pid buyer u lvl amt = (s, false) := by
  simp [insert_reward, hk]

/-! ## Repeated and concurrent settlement -/

/-- `n` sequential `Settle` calls for the same purchase. -/
def settleN (s : Store) (p : PurchaseId) : Nat → Store
  | 0 => s
  | n + 1 => settleState (settleN s p n) p

/-- Any positive number of sequential `Settle` calls for the same
purchase ends in the state one call produces. -/
theorem settleN_eq_one (s : Store) (p : PurchaseId) (n : Nat) (h : 1 ≤ n) :
    settleN s p n = settleState s p := by
  induction n with
  | zero => exact absurd h (by decide)
  | succ n ih =>
    rcases Nat.eq_zero_or_pos n with h0 | h1
    · subst h0; rfl
    · show settleState (settleN s p n) p = settleState s p
      rw [ih h1, settleState_idem]

/-- Where a concurrent settler of purchase `p` stands.  Its first data
access (`SELECT ... FOR UPDATE`) acquires the exclusive row lock on `p`;
everything it does afterwards happens under that lock, with its writes
buffered by the transaction and published at commit. -/
inductive Phase where
  | idle
  | begun
  | inBody
  | done
deriving DecidableEq, Repr

/-- Global state of `n` settlers of the same purchase racing on one
store: the committed store, the holder of the purchase-row lock, and
each settler's phase. -/
structure ConcState (n : Nat) where
  store : Store
  lockHolder : Option (Fin n)
  phase : Fin n → Phase

/-- All settlers created, none started, lock free. -/
def ConcState.init (n : Nat) (s : Store) : ConcState n :=
  ⟨s, none, fun _ => Phase.idle⟩

/-- Interleaving semantics of `n` concurrent `Settle(p)` calls.  A
settler may start at any time (`begin` opens its transaction, touching
nothing).  Its first statement is the `FOR UPDATE` fetch, which only
proceeds when no other settler holds the row lock (`acquire`); from then
on it computes inside its transaction — the committed store cannot change
under it, because every store mutation is a commit and committing
requires the lock it holds.  `commit` publishes its buffered
read-compute-write (`settleState` of the store it locked, which equals
the store at commit time) and releases the lock; an aborted run
publishes the unchanged store, which `settleState` also covers. -/
inductive SettleStep (p : PurchaseId) {n : Nat} :
    ConcState n → ConcState n → Prop where
  | start (i : Fin n) (st : ConcState n) (h : st.phase i = .idle) :
      SettleStep p st ⟨st.store, st.lockHolder, Function.update st.phase i .begun⟩
  | acquire (i : Fin n) (st : ConcState n) (h : st.phase i = .begun)
      (hl : st.lockHolder = none) :
      SettleStep p st ⟨st.store, some i, Function.update st.phase i .inBody⟩
  | commit (i : Fin n) (st : ConcState n) (h : st.phase i = .inBody)
      (hl : st.lockHolder = some i) :
      SettleStep p st
        ⟨settleState st.store p, none, Function.update st.phase i .done⟩

/-- Invariant of the race: until someone commits the store is untouched,
and afterwards it is exactly the single-call result. -/
def ConcInv (s : Store) (p : PurchaseId) {n : Nat} (st : ConcState n) : Prop :=
  (st.store = s ∧ ∀ i, st.phase i ≠ .done) ∨ st.store = settleState s p

theorem concInv_step {s : Store} {p : PurchaseId} {n : Nat}
    {st st' : ConcState n} (hstep : SettleStep p st st')
    (hinv : ConcInv s p st) : ConcInv s p st' := by
  cases hstep with
  | start i st h =>
    rcases hinv with ⟨hs, hnd⟩ | hs
    · left
      refine ⟨hs, fun j => ?_⟩
      by_cases hj : j = i
      · subst hj; simp [Function.update]
      · simpa [Function.update, hj] using hnd j
    · right; exact hs
  | acquire i st h hl =>
    rcases hinv with ⟨hs, hnd⟩ | hs
    · left
      refine ⟨hs, fun j => ?_⟩
      by_cases hj : j = i
      · subst hj; simp [Function.update]
      · simpa [Function.update, hj] using hnd j
    · right; exact hs
  | commit i st h hl =>
    rcases hinv with ⟨hs, _⟩ | hs
    · right; show settleState st.store p = settleState s p; rw [hs]
    · right
      show settleState st.store p = settleState s p
      rw [hs, settleState_idem]

/-- Any complete interleaving of `n ≥ 1` concurrent `Settle(p)` calls
(all settlers done) leaves the store exactly as a single call does. -/
theorem concurrent_settle (n : Nat) (hn : 1 ≤ n) (s : Store)
    (p : PurchaseId) (st : ConcState n)
    (hreach : Relation.ReflTransGen (SettleStep p) (ConcState.init n s) st)
    (hdone : ∀ i, st.phase i = .done) : st.store = settleState s p := by
  have hinv : ConcInv s p st := by
    clear hdone
    induction hreach with
    | refl => exact .inl ⟨rfl, fun i => by simp [ConcState.init]⟩
    | tail _ hbc ih => exact concInv_step hbc ih
  rcases hinv with ⟨_, hnd⟩ | hs
  · exact absurd (hdone ⟨0, hn⟩) (hnd ⟨0, hn⟩)
  · exact hs

/-! ## Balance accounting -/

theorem balanceOf_of_balances_eq {s1 s2 : Store}
    (h : s1.balances = s2.balances) (u : UserId) :
    balanceOf s1 u = balanceOf s2 u := by
  simp [balanceOf, h]

theorem find_map_update (l : List (UserId × Int)) (u : UserId) (d : Int) :
    (l.map (fun b => if b.1 == u then (b.1, b.2 + d) else b)).find?
        (fun b => b.1 == u) =
      match l.find? (fun b => b.1 == u) with
      | some b => some (b.1, b.2 + d)
      | none => none := by
  induction l with
  | nil => rfl
  | cons hd tl ih =>
    by_cases h : (hd.1 == u) = true
    · have h1 : List.find? (fun b => b.1 == u)
          ((hd.1, hd.2 + d) ::
            tl.map (fun b => if b.1 == u then (b.1, b.2 + d) else b)) =
          some (hd.1, hd.2 + d) :=
        List.find?_cons_of_pos _ (by simpa using h)
      have h2 : List.find? (fun b => b.1 == u) (hd :: tl) = some hd :=
        List.find?_cons_of_pos _ h
      rw [List.map_cons, if_pos h, h1, h2]
    · have h1 : List.find? (fun b => b.1 == u)
          (hd :: tl.map (fun b => if b.1 == u then (b.1, b.2 + d) else b)) =
          List.find? (fun b => b.1 == u)
            (tl.map (fun b => if b.1 == u then (b.1, b.2 + d) else b)) :=
        List.find?_cons_of_neg _ h
      have h2 : List.find? (fun b => b.1 == u) (hd :: tl) =
          List.find? (fun b => b.1 == u) tl :=
        List.find?_cons_of_neg _ h
      rw [List.map_cons, if_neg h, h1, h2, ih]

/-- Upsert-incrementing a user's balance raises that user's read-back
balance by exactly the delta. -/
theorem balanceOf_add_balance_self (s : Store) (u : UserId) (d : Int) :
    balanceOf (add_balance s u d) u = balanceOf s u + d := by
  unfold add_balance
  by_cases hmem : s.balances.any (fun b => b.1 == u)
  · rw [if_pos hmem]
    unfold balanceOf
    rw [find_map_update]
    cases hfind : s.balances.find? (fun b => b.1 == u) with
    | some b => simp
    | none =>
      rw [List.any_eq_true] at hmem
      obtain ⟨x, hx, hpx⟩ := hmem
      exact absurd hpx (by simpa using List.find?_eq_none.mp hfind x hx)
  · rw [if_neg hmem]
    unfold balanceOf
    have hnone : s.balances.find? (fun b => b.1 == u) = none := by
      rw [List.find?_eq_none]
      intro x hx hpx
      exact hmem (List.any_eq_true.mpr ⟨x, hx, hpx⟩)
    rw [List.find?_append, hnone]
    simp

/-! ## `percent_of` versus the specification's floor contract -/

theorem wrap64_eq_self {x : Int} (h0 : -(2 ^ 63) ≤ x) (h1 : x < 2 ^ 63) :
    wrap64 x = x := by
  have e0 : (2 : Int) ^ 63 = 9223372036854775808 := by norm_num
  have e1 : (2 : Int) ^ 64 = 18446744073709551616 := by norm_num
  unfold wrap64
  rw [e0, e1]
  rw [e0] at h0 h1
  omega

/-- For non-negative inputs whose true result fits in `i64`, the code's
`percent_of` agrees with the specification's floor formula. -/
theorem percent_of_eq_spec_of_nonneg {a p : Int} (ha : 0 ≤ a) (hp : 0 ≤ p)
    (hlt : a * p < 100 * 2 ^ 63) :
    percent_of a p = percent_of_spec a p := by
  have hmul : 0 ≤ a * p := mul_nonneg ha hp
  have h100 : (0 : Int) ≤ 100 := by norm_num
  have ht : Int.tdiv (a * p) 100 = (a * p) / 100 := Int.tdiv_eq_ediv hmul h100
  have hfd : Int.fdiv (a * p) 100 = (a * p) / 100 := Int.fdiv_eq_ediv _ h100
  have h0 : 0 ≤ (a * p) / 100 := Int.ediv_nonneg hmul h100
  have hub : (a * p) / 100 < 2 ^ 63 := by
    rw [Int.ediv_lt_iff_lt_mul (by norm_num)]
    calc a * p < 100 * 2 ^ 63 := hlt
    _ = 2 ^ 63 * 100 := by ring
  unfold percent_of percent_of_spec
  rw [ht, hfd, wrap64_eq_self (by omega) hub]

/-- Store with users but no purchase row at all. -/
def sNoPurchase : Store := ⟨[], usersChain, [], []⟩

/-- When the amount is positive and the key absent, the per-level block
credits the beneficiary by exactly the amount. -/
theorem balanceOf_levelBlock_newly (s : Store) (pid : PurchaseId)
    (buyer u : UserId) (lvl amt : Int) (ha : amt > 0)
    (hk : hasKeyB s pid u lvl = false) :
    balanceOf (levelBlock s pid buyer (some u) lvl amt) u =
      balanceOf s u + amt := by
  rw [levelBlock_some_eq, if_pos ⟨ha, hk⟩, balanceOf_add_balance_self]
  exact congrArg (· + amt) (balanceOf_of_balances_eq rfl u)

-- Scratch sanity checks (concrete semantics of the embedding).
example : Int.tdiv (-550) 100 = -5 := by decide
example : Int.fdiv (-550) 100 = -6 := by decide
example : percent_of 1000 10 = 100 := by decide
example : percent_of 999 10 = 99 := by decide
example : percent_of 0 10 = 0 := by decide
example : percent_of (-55) 10 = -5 := by decide
example : percent_of_spec (-55) 10 = -6 := by decide
example : settleState sChain 0 =
    ⟨[purchaseCaptured], usersChain,
     [⟨0, 1, 2, 1, 100⟩, ⟨0, 1, 3, 2, 50⟩], [(2, 100), (3, 50)]⟩ := by decide
example : settleState sInactive 0 = sInactive := by decide
example : settleState sAuthorized 0 = sAuthorized := by decide
example : process_purchase sNoBuyer 0 = .error .rowNotFound := rfl
example : settleState (settleState sChain 0) 0 = settleState sChain 0 := by decide
example : process_purchase_main sChain 0 = process_purchase sChain 0 := rfl

/-! ## Claim theorems -/

/-- C1: In every call to `Settle` on a captured purchase, for each
resolved referrer level, the beneficiary's balance is credited (by
exactly the computed amount) if and only if the computed reward amount is
strictly positive and the reward grant for (purchase, beneficiary, level)
was newly inserted in that same call; when it is, the key is present
afterwards and was absent before, and otherwise the level leaves the
store untouched. -/
theorem settle_credit_iff_newly_granted (s : Store) (p : PurchaseId)
    (pr : Purchase) (l1 l2 : Option UserId)
    (hf : fetch_purchase s p = .ok pr)
    (hst : pr.status = PAYMENT_STATUS_CAPTURED)
    (h1 : active_referrer s pr.user_id = .ok l1)
    (h2 : (match l1 with
           | some u => active_referrer s u
           | none => .ok none) = .ok l2) :
    ∃ s1 s2,
      s1 = levelBlock s p pr.user_id l1 1 (percent_of pr.amount L1_PERCENTAGE) ∧
      s2 = levelBlock s1 p pr.user_id l2 2 (percent_of pr.amount L2_PERCENTAGE) ∧
      process_purchase s p = .ok s2 ∧
      (∀ b1, l1 = some b1 →
        (balanceOf s1 b1 ≠ balanceOf s b1 ↔
          (percent_of pr.amount L1_PERCENTAGE > 0 ∧ hasKeyB s p b1 1 = false)) ∧
        ((percent_of pr.amount L1_PERCENTAGE > 0 ∧ hasKeyB s p b1 1 = false) →
          balanceOf s1 b1 = balanceOf s b1 + percent_of pr.amount L1_PERCENTAGE ∧
          hasKeyB s1 p b1 1 = true) ∧
        (¬(percent_of pr.amount L1_PERCENTAGE > 0 ∧ hasKeyB s p b1 1 = false) →
          s1 = s)) ∧
      (∀ b2, l2 = some b2 →
        (balanceOf s2 b2 ≠ balanceOf s1 b2 ↔
          (percent_of pr.amount L2_PERCENTAGE > 0 ∧ hasKeyB s1 p b2 2 = false)) ∧
        ((percent_of pr.amount L2_PERCENTAGE > 0 ∧ hasKeyB s1 p b2 2 = false) →
          balanceOf s2 b2 = balanceOf s1 b2 + percent_of pr.amount L2_PERCENTAGE ∧
          hasKeyB s2 p b2 2 = true) ∧
        (¬(percent_of pr.amount L2_PERCENTAGE > 0 ∧ hasKeyB s1 p b2 2 = false) →
          s2 = s1)) := by
  refine ⟨_, _, rfl, rfl, process_purchase_captured_eq hf hst h1 h2, ?_, ?_⟩
  · intro b1 hb1
    subst hb1
    by_cases hc : percent_of pr.amount L1_PERCENTAGE > 0 ∧
        hasKeyB s p b1 1 = false
    · have hbal := balanceOf_levelBlock_newly s p pr.user_id b1 1
        (percent_of pr.amount L1_PERCENTAGE) hc.1 hc.2
      have hkey := hasKeyB_levelBlock_self s p pr.user_id b1 1
        (percent_of pr.amount L1_PERCENTAGE) hc.1
      refine ⟨⟨fun _ => hc, fun _ => ?_⟩, fun _ => ⟨hbal, hkey⟩,
        fun hcon => absurd hc hcon⟩
      rw [hbal]
      have := hc.1
      omega
    · have hnoop : levelBlock s p pr.user_id (some b1) 1
          (percent_of pr.amount L1_PERCENTAGE) = s := by
        rw [levelBlock_some_eq, if_neg hc]
      refine ⟨?_, fun hcon => absurd hcon hc, fun _ => hnoop⟩
      rw [hnoop]
      exact iff_of_false (by simp) hc
  · intro b2 hb2
    subst hb2
    by_cases hc : percent_of pr.amount L2_PERCENTAGE > 0 ∧
        hasKeyB (levelBlock s p pr.user_id l1 1
          (percent_of pr.amount L1_PERCENTAGE)) p b2 2 = false
    · have hbal := balanceOf_levelBlock_newly
        (levelBlock s p pr.user_id l1 1 (percent_of pr.amount L1_PERCENTAGE))
        p pr.user_id b2 2 (percent_of pr.amount L2_PERCENTAGE) hc.1 hc.2
      have hkey := hasKeyB_levelBlock_self
        (levelBlock s p pr.user_id l1 1 (percent_of pr.amount L1_PERCENTAGE))
        p pr.user_id b2 2 (percent_of pr.amount L2_PERCENTAGE) hc.1
      refine ⟨⟨fun _ => hc, fun _ => ?_⟩, fun _ => ⟨hbal, hkey⟩,
        fun hcon => absurd hc hcon⟩
      rw [hbal]
      have := hc.1
      omega
    · have hnoop : levelBlock (levelBlock s p pr.user_id l1 1
          (percent_of pr.amount L1_PERCENTAGE)) p pr.user_id (some b2) 2
          (percent_of pr.amount L2_PERCENTAGE) =
          levelBlock s p pr.user_id l1 1 (percent_of pr.amount L1_PERCENTAGE) := by
        rw [levelBlock_some_eq, if_neg hc]
      refine ⟨?_, fun hcon => absurd hcon hc, fun _ => hnoop⟩
      rw [hnoop]
      exact iff_of_false (by simp) hc

/-- C1 witness: the two-level active chain store, settled once. -/
theorem settle_credit_iff_newly_granted_witness :
    ∃ s1 s2,
      s1 = levelBlock sChain 0 purchaseCaptured.user_id (some 2) 1
        (percent_of purchaseCaptured.amount L1_PERCENTAGE) ∧
      s2 = levelBlock s1 0 purchaseCaptured.user_id (some 3) 2
        (percent_of purchaseCaptured.amount L2_PERCENTAGE) ∧
      process_purchase sChain 0 = .ok s2 ∧
      (∀ b1, (some 2 : Option UserId) = some b1 →
        (balanceOf s1 b1 ≠ balanceOf sChain b1 ↔
          (percent_of purchaseCaptured.amount L1_PERCENTAGE > 0 ∧
           hasKeyB sChain 0 b1 1 = false)) ∧
        ((percent_of purchaseCaptured.amount L1_PERCENTAGE > 0 ∧
          hasKeyB sChain 0 b1 1 = false) →
          balanceOf s1 b1 = balanceOf sChain b1 +
            percent_of purchaseCaptured.amount L1_PERCENTAGE ∧
          hasKeyB s1 0 b1 1 = true) ∧
        (¬(percent_of purchaseCaptured.amount L1_PERCENTAGE > 0 ∧
           hasKeyB sChain 0 b1 1 = false) → s1 = sChain)) ∧
      (∀ b2, (some 3 : Option UserId) = some b2 →
        (balanceOf s2 b2 ≠ balanceOf s1 b2 ↔
          (percent_of purchaseCaptured.amount L2_PERCENTAGE > 0 ∧
           hasKeyB s1 0 b2 2 = false)) ∧
        ((percent_of purchaseCaptured.amount L2_PERCENTAGE > 0 ∧
          hasKeyB s1 0 b2 2 = false) →
          balanceOf s2 b2 = balanceOf s1 b2 +
            percent_of purchaseCaptured.amount L2_PERCENTAGE ∧
          hasKeyB s2 0 b2 2 = true) ∧
        (¬(percent_of purchaseCaptured.amount L2_PERCENTAGE > 0 ∧
           hasKeyB s1 0 b2 2 = false) → s2 = s1)) :=
  settle_credit_iff_newly_granted sChain 0 purchaseCaptured (some 2) (some 3)
    rfl rfl rfl rfl

/-- C2: For every purchase id and every initial store, two sequential
`Settle` calls end in exactly the store (balances and reward grants
included) one call produces. -/
theorem settle_twice_eq_settle_once (s : Store) (p : PurchaseId) :
    settleState (settleState s p) p = settleState s p :=
  settleState_idem s p

/-- C3: For every purchase id, any complete interleaving of `N ≥ 1`
concurrent `Settle` calls — serialized per purchase by the `FOR UPDATE`
row lock each settler's first statement takes, with transactional
buffering of its writes — ends with the same store (same grants, same
balances) as a single call; equivalently, `N` sequential calls equal
one. -/
theorem settle_concurrent_eq_settle_once (n : Nat) (hn : 1 ≤ n) (s : Store)
    (p : PurchaseId) (st : ConcState n)
    (hreach : Relation.ReflTransGen (SettleStep p) (ConcState.init n s) st)
    (hdone : ∀ i, st.phase i = .done) :
    st.store = settleState s p ∧ settleN s p n = settleState s p :=
  ⟨concurrent_settle n hn s p st hreach hdone, settleN_eq_one s p n hn⟩

/-- C3 witness: one settler started, locked, and committed on the
two-level chain store. -/
theorem settle_concurrent_eq_settle_once_witness :
    (ConcState.mk (settleState sChain 0) none
      (Function.update (Function.update (Function.update
        (fun _ => Phase.idle) (0 : Fin 1) Phase.begun) 0 Phase.inBody)
        0 Phase.done)).store = settleState sChain 0 ∧
    settleN sChain 0 1 = settleState sChain 0 := by
  refine settle_concurrent_eq_settle_once 1 (by decide) sChain 0 _ ?_ (by decide)
  exact Relation.ReflTransGen.tail
    (Relation.ReflTransGen.tail
      (Relation.ReflTransGen.single (SettleStep.start 0 _ rfl))
      (SettleStep.acquire 0 _ (by decide) rfl))
    (SettleStep.commit 0 _ (by decide) rfl)

/-- C4 counterexample: with no purchase row, `Settle` aborts with the
store's row-not-found error, but the HTTP layer reports it as an
internal failure (`ApiError::Internal`, code `PROCESS_FAILURE`, HTTP
500) — there is no distinct not-found report to the caller. -/
theorem notFound_reported_as_internal_cex :
    process_purchase sNoPurchase 0 = .error .rowNotFound ∧
    process_purchase_handler sNoPurchase 0 =
      .error (ApiError.internal DbError.rowNotFound, E_PROCESS_FAILURE) ∧
    apiStatusOf (ApiError.internal DbError.rowNotFound) = 500 :=
  ⟨rfl, rfl, rfl⟩

/-- C4 amended: when the purchase does not exist, `Settle` fails (it
does not succeed, and commits nothing), but the failure reaches the
caller as an internal failure with code `PROCESS_FAILURE` (HTTP 500),
not as a distinct not-found error. -/
theorem notFound_fails_as_internal (s : Store) (p : PurchaseId)
    (hf : fetch_purchase s p = .error .rowNotFound) :
    process_purchase s p = .error .rowNotFound ∧
    settleState s p = s ∧
    process_purchase_handler s p =
      .error (ApiError.internal DbError.rowNotFound, E_PROCESS_FAILURE) ∧
    apiStatusOf (ApiError.internal DbError.rowNotFound) = 500 := by
  have hp := process_purchase_not_found hf
  refine ⟨hp, ?_, ?_, rfl⟩
  · unfold settleState
    rw [hp]
  · unfold process_purchase_handler
    rw [hp]

/-- C4 amended witness: the store with users but no purchases. -/
theorem notFound_fails_as_internal_witness :
    process_purchase sNoPurchase 0 = .error .rowNotFound ∧
    settleState sNoPurchase 0 = sNoPurchase ∧
    process_purchase_handler sNoPurchase 0 =
      .error (ApiError.internal DbError.rowNotFound, E_PROCESS_FAILURE) ∧
    apiStatusOf (ApiError.internal DbError.rowNotFound) = 500 :=
  notFound_fails_as_internal sNoPurchase 0 rfl

/-- C5 counterexample: `percent_of` is Rust truncating division plus a
wrapping `i64` cast, not the floor of the claim — at amount `-55`,
percent `10` the code yields `-5` while `floor(-550/100) = -6`. -/
theorem percent_of_not_floor_cex :
    percent_of (-55) 10 = -5 ∧ percent_of_spec (-55) 10 = -6 ∧
    percent_of (-55) 10 ≠ percent_of_spec (-55) 10 :=
  ⟨by decide, by decide, by decide⟩

/-- C5 amended: for non-negative amount and percent whose exact result
fits below `2^63` (in particular for the supported `i64` amounts with the
fixed percents 10 and 5), `percent_of` equals
`floor(amount * percent / 100)`, and the three cited examples hold; for
negative amounts the code truncates toward zero instead of flooring. -/
theorem percent_of_floor_amended (a p : Int) (ha : 0 ≤ a) (hp : 0 ≤ p)
    (hlt : a * p < 100 * 2 ^ 63) :
    percent_of a p = percent_of_spec a p ∧
    percent_of 1000 10 = 100 ∧ percent_of 999 10 = 99 ∧
    percent_of 0 10 = 0 :=
  ⟨percent_of_eq_spec_of_nonneg ha hp hlt, by decide, by decide, by decide⟩

/-- C5 amended witness: the spec's own example `PercentOf(1000, 10)`. -/
theorem percent_of_floor_amended_witness :
    percent_of 1000 10 = percent_of_spec 1000 10 ∧
    percent_of 1000 10 = 100 ∧ percent_of 999 10 = 99 ∧
    percent_of 0 10 = 0 :=
  percent_of_floor_amended 1000 10 (by decide) (by decide) (by decide)

/-- C6: When the buyer's level-1 referrer is absent or inactive, chain
resolution yields no beneficiary at either level and the settlement of a
captured purchase commits the store completely unchanged — no level-1 or
level-2 grant or credit — whatever level-2 candidate exists. -/
theorem chain_short_circuit (s : Store) (p : PurchaseId) (pr : Purchase)
    (hf : fetch_purchase s p = .ok pr)
    (hst : pr.status = PAYMENT_STATUS_CAPTURED)
    (h1 : active_referrer s pr.user_id = .ok none) :
    process_purchase s p = .ok s :=
  process_purchase_captured_eq hf hst h1 rfl

/-- C6 witness: buyer 1's referrer (user 2) is inactive although user
2's own referrer (user 3) is active. -/
theorem chain_short_circuit_witness :
    process_purchase sInactive 0 = .ok sInactive :=
  chain_short_circuit sInactive 0 purchaseCaptured rfl rfl rfl

/-- C7: Settling a purchase whose status is not the literal "captured"
performs no grant and no credit — the store is returned exactly
unchanged — and reports success. -/
theorem status_gating_noop (s : Store) (p : PurchaseId) (pr : Purchase)
    (hf : fetch_purchase s p = .ok pr)
    (hst : pr.status ≠ PAYMENT_STATUS_CAPTURED) :
    process_purchase s p = .ok s ∧ settleState s p = s := by
  have hp := process_purchase_not_captured hf hst
  refine ⟨hp, ?_⟩
  unfold settleState
  rw [hp]

/-- C7 witness: an authorized (not yet captured) purchase. -/
theorem status_gating_noop_witness :
    process_purchase sAuthorized 0 = .ok sAuthorized ∧
    settleState sAuthorized 0 = sAuthorized :=
  status_gating_noop sAuthorized 0 purchaseAuthorized rfl (by decide)

/-- C8: In every reachable store at most one reward-grant row exists per
(purchase, beneficiary, level) key, and a duplicate grant attempt on a
present key inserts nothing, reports not-newly-created, and does not
error. -/
theorem reward_unique_and_duplicate_absorbed (s : Store)
    (h : Reachable s) :
    RewardKeysUnique s ∧
    ∀ pid buyer u lvl amt, hasKeyB s pid u lvl = true →
      insert_reward s pid buyer u lvl amt = (s, false) :=
  ⟨reachable_rewardKeysUnique h,
   fun pid buyer u lvl amt hk => insert_reward_duplicate s pid buyer u lvl amt hk⟩

/-- C8 witness: the chain store reached by loading users, adding the
captured purchase, and settling once. -/
theorem reward_unique_and_duplicate_absorbed_witness :
    RewardKeysUnique (settleState sChain 0) ∧
    ∀ pid buyer u lvl amt, hasKeyB (settleState sChain 0) pid u lvl = true →
      insert_reward (settleState sChain 0) pid buyer u lvl amt =
        (settleState sChain 0, false) :=
  reward_unique_and_duplicate_absorbed (settleState sChain 0)
    (Reachable.settle sChain 0
      (Reachable.addPurchase ⟨[], usersChain, [], []⟩ purchaseCaptured
        (Reachable.setUsers Store.empty usersChain Reachable.init)))

/-- C9: The earlier `main.rs` settlement (pre-check `has_rewarded`, then
insert and credit) and the `lib.rs` settlement (credit gated on the
insert's newly-created report) return the same result and the same
committed store from every initial store, hence agree on every
sequential execution. -/
theorem main_lib_settlement_equiv (s : Store) (p : PurchaseId) :
    process_purchase_main s p = process_purchase s p :=
  process_purchase_main_eq s p

/-- C10: Settling a captured purchase whose buyer has no `users` row
aborts with the row-not-found error — the missing buyer is not treated
as "no referrer" — and the rolled-back store is unchanged. -/
theorem missing_buyer_aborts (s : Store) (p : PurchaseId) (pr : Purchase)
    (hf : fetch_purchase s p = .ok pr)
    (hst : pr.status = PAYMENT_STATUS_CAPTURED)
    (hb : s.users.find? (fun u => u.id == pr.user_id) = none) :
    process_purchase s p = .error .rowNotFound ∧ settleState s p = s := by
  have hp := process_purchase_no_buyer hf hst hb
  refine ⟨hp, ?_⟩
  unfold settleState
  rw [hp]

/-- C10 witness: a captured purchase by buyer 1 with no row for user 1. -/
theorem missing_buyer_aborts_witness :
    process_purchase sNoBuyer 0 = .error .rowNotFound ∧
    settleState sNoBuyer 0 = sNoBuyer :=
  missing_buyer_aborts sNoBuyer 0 purchaseCaptured rfl rfl rfl
